import Mathlib

/-!
Etude front-end: expression nodes (`src/ast/expressions.hpp`)

A shallow embedding of the expression node classes of the Etude compiler
front-end, together with the properties of `GetType`, `GetAddress`,
`IsDirect`, `Accept` and the constructors, of the checker steps on
`FieldAccess` and `Addressof`, and of `ParseOptions` (`app/etc_cli.cpp`).

Conventions of the embedding.

* A C++ class hierarchy with virtual methods becomes a closed inductive type
  and a function defined by cases on the constructor; every constructor is
  named after the class it stands for and its fields keep the member names.
* A pointer member that the source itself defaults to, or compares with,
  `nullptr` (`type_`, `final_`, the `false_branch` argument) is an `Option`.
  All other child pointers are owned links to nodes that are already built.
* A method whose body may hit `FMT_ASSERT` returns `Except Fault _`.
* `int` members are `Int`s; no arithmetic is performed on them in this header.
-/

namespace Etude

/-! ## Collaborators declared outside `expressions.hpp` -/

/-- Modelled from the spec: `lex::Token` (declared in `lex/token.hpp`, which is
not among the sources). A token carries a kind, its literal text and a source
position. -/
structure Token where
  kind : Nat
  text : String
  pos : Nat
  deriving DecidableEq, Repr

/-- Modelled from the spec: `Statement` (declared in `ast/syntax_tree.hpp`,
which is not among the sources). Blocks only store pointers to statements, so
a statement is represented by the handle that identifies it. -/
structure Statement where
  handle : Nat
  deriving DecidableEq, Repr

/-- Modelled from the spec: `types::Type` (declared in `types/type.hpp`, which
is not among the sources): a closed set of variants, compared structurally. -/
inductive Ty where
  | Primitive (kind : String)
  | Pointer (pointee : Ty)
  | Struct (name : String) (fields : List (String × Ty))
  | Function (params : List Ty) (ret : Ty)

/-- Modelled from the spec: `types::PointerType` (declared in
`types/repr/pointer_type.hpp`, which is not among the sources): the pointer
variant of `Ty`, identified by its pointee. -/
structure PointerType where
  pointee : Ty

/-- The implicit upcast `PointerType* → Type*` used by
`AddressofExpression::GetType`. -/
def PointerType.toType (p : PointerType) : Ty := Ty.Pointer p.pointee

/-- The internal-consistency fault: a failed assertion, with its message. -/
structure Fault where
  message : String
  deriving DecidableEq, Repr

/-- Modelled from the spec: the `FMT_ASSERT(condition, message)` macro of the
fmt library (not among the sources), in a build with assertions enabled: a
false condition raises the internal-consistency fault, a true one continues. -/
def FMT_ASSERT (condition : Bool) (message : String) : Except Fault Unit :=
  if condition then Except.ok () else Except.error ⟨message⟩

/-! ## The node classes -/

mutual

/-- The classes deriving from `LvalueExpression`. -/
inductive LvalueExpression where
  | DereferenceExpression (star_ : Token) (operand_ : Expression)
      (address_ : Int) (type_ : Option Ty)
  | FieldAccessExpression (struct_expression_ : LvalueExpression)
      (type_ : Option Ty) (struct_name_ : Token) (field_name_ : Token)
      (is_direct_ : Bool) (address_ : Int)
  | VarAccessExpression (name_ : Token) (type_ : Option Ty) (address_ : Int)

/-- The classes deriving from `Expression`; the three lvalue classes are
reached through `Lvalue`. -/
inductive Expression where
  | ComparisonExpression (left_ : Expression) (operator_ : Token)
      (right_ : Expression)
  | BinaryExpression (left_ : Expression) (operator_ : Token)
      (right_ : Expression)
  | UnaryExpression (operator_ : Token) (operand_ : Expression)
  | Lvalue (node : LvalueExpression)
  | AddressofExpression (ampersand_ : Token) (operand_ : LvalueExpression)
      (type_ : Option PointerType)
  | FnCallExpression (fn_name_ : Token) (arguments_ : List Expression)
      (is_native_call_ : Bool)
  | StructConstructionExpression (struct_name_ : Token)
      (values_ : List Expression) (type_ : Option Ty)
  | BlockExpression (stmts_ : List Statement) (final_ : Option Expression)
  | IfExpression (condition_ : Expression) (true_branch_ : Expression)
      (false_branch_ : Option Expression)
  | LiteralExpression (type_ : Option Ty) (token_ : Token)

end

/-! ## Constructors of the classes

Each `new` is the C++ constructor: it sets the members named in the
initialiser list and leaves the others at their default member initialiser. -/

/-- `ComparisonExpression(left, op, right)`. -/
def ComparisonExpression.new (left : Expression) (op : Token)
    (right : Expression) : Expression :=
  Expression.ComparisonExpression left op right

/-- `BinaryExpression(left, op, right)`. -/
def BinaryExpression.new (left : Expression) (op : Token)
    (right : Expression) : Expression :=
  Expression.BinaryExpression left op right

/-- `UnaryExpression(op, operand)`. -/
def UnaryExpression.new (op : Token) (operand : Expression) : Expression :=
  Expression.UnaryExpression op operand

/-- `DereferenceExpression(star, operand)`; `address_ = 0`, `type_ = nullptr`. -/
def DereferenceExpression.new (star : Token) (operand : Expression) :
    LvalueExpression :=
  LvalueExpression.DereferenceExpression star operand 0 none

/-- `AddressofExpression(ampersand, operand)`; `type_ = nullptr`. -/
def AddressofExpression.new (ampersand : Token) (operand : LvalueExpression) :
    Expression :=
  Expression.AddressofExpression ampersand operand none

/-- `FnCallExpression(fn_name, arguments)`; `is_native_call_ = false`. -/
def FnCallExpression.new (fn_name : Token) (arguments : List Expression) :
    Expression :=
  Expression.FnCallExpression fn_name arguments false

/-- `StructConstructionExpression(struct_name, values)`; `type_ = nullptr`. -/
def StructConstructionExpression.new (struct_name : Token)
    (values : List Expression) : Expression :=
  Expression.StructConstructionExpression struct_name values none

/-- `FieldAccessExpression(struct_name, field_name, lvalue)`; `type_ = nullptr`,
`is_direct_ = true`, `address_ = 0`. -/
def FieldAccessExpression.new (struct_name : Token) (field_name : Token)
    (lvalue : LvalueExpression) : LvalueExpression :=
  LvalueExpression.FieldAccessExpression lvalue none struct_name field_name true 0

/-- `BlockExpression(stmts, final = nullptr)`. -/
def BlockExpression.new (stmts : List Statement) (final : Option Expression) :
    Expression :=
  Expression.BlockExpression stmts final

/-- `IfExpression(condition, true_branch, false_branch = nullptr)`: the
members are initialised from the arguments, then a null `false_branch_` is
replaced by `new BlockExpression{{}}`. -/
def IfExpression.new (condition : Expression) (true_branch : Expression)
    (false_branch : Option Expression) : Expression :=
  match false_branch with
  | none =>
    Expression.IfExpression condition true_branch
      (some (BlockExpression.new [] none))
  | some e => Expression.IfExpression condition true_branch (some e)

/-- `LiteralExpression(token)`; `type_ = nullptr`. -/
def LiteralExpression.new (token : Token) : Expression :=
  Expression.LiteralExpression none token

/-- `VarAccessExpression(name)`; `type_ = nullptr`, `address_ = 0`. -/
def VarAccessExpression.new (name : Token) : LvalueExpression :=
  LvalueExpression.VarAccessExpression name none 0

/-! ## Virtual methods -/

/-- `LvalueExpression::IsDirect` with its overrides: `DereferenceExpression`
returns `false`, `FieldAccessExpression` forwards to `struct_expression_`, and
`VarAccessExpression` inherits the base body `return true`. -/
def LvalueExpression.IsDirect : LvalueExpression → Bool
  | .DereferenceExpression _ _ _ _ => false
  | .FieldAccessExpression struct_expression_ _ _ _ _ _ =>
    struct_expression_.IsDirect
  | .VarAccessExpression _ _ _ => true

/-- `LvalueExpression::GetAddress` with its overrides. -/
def LvalueExpression.GetAddress : LvalueExpression → Except Fault Int
  | .DereferenceExpression _ _ _ _ => do
    FMT_ASSERT false
      "Cannot take the address of pointer dereference at compile-time\n"
    -- the body has no return statement: running past the assertion is
    -- undefined behaviour, which the embedding reports as a fault as well
    Except.error ⟨"control reaches the end of a non-void function"⟩
  | .FieldAccessExpression _ _ _ _ _ address_ => Except.ok address_
  | .VarAccessExpression _ _ address_ => Except.ok address_

/-- `GetType` of the three lvalue classes. -/
def LvalueExpression.GetType : LvalueExpression → Except Fault (Option Ty)
  | .DereferenceExpression _ _ _ type_ => do
    FMT_ASSERT type_.isSome "Typechecker fault!"
    return type_
  | .FieldAccessExpression _ type_ _ _ _ _ => do
    FMT_ASSERT type_.isSome "Returning unassigned type"
    return type_
  | .VarAccessExpression _ type_ _ => do
    FMT_ASSERT type_.isSome "Type field is not set!"
    return type_

/-- `Expression::GetType` with its overrides. The result is the returned
`types::Type*`: `none` is the null pointer. -/
def Expression.GetType : Expression → Except Fault (Option Ty)
  | .ComparisonExpression _ _ _ => do
    FMT_ASSERT false "Unreachable!"
    return none
  | .BinaryExpression _ _ _ => do
    FMT_ASSERT false "Unreachable!"
    return none
  | .UnaryExpression _ _ => do
    FMT_ASSERT false "Unreachable!"
    return none
  | .Lvalue node => node.GetType
  | .AddressofExpression _ _ type_ => return type_.map PointerType.toType
  | .FnCallExpression _ _ _ => do
    FMT_ASSERT false "Unreachable!"
    return none
  | .StructConstructionExpression _ _ type_ => do
    FMT_ASSERT type_.isSome "Oh-huh!"
    return type_
  | .BlockExpression _ _ => do
    FMT_ASSERT false "Unreachable!"
    return none
  | .IfExpression _ _ _ => do
    FMT_ASSERT false "Unreachable!"
    return none
  | .LiteralExpression _ _ => do
    FMT_ASSERT false "Unreachable!"
    return none

/-! ## Visitor dispatch -/

/-- Modelled from the spec: `Visitor` (declared in `ast/syntax_tree.hpp`, which
is not among the sources), restricted to the twelve methods that
`expressions.hpp` calls. A method receives the node it is called on and
transforms the state `σ` of the pass (everything the call may change). -/
structure Visitor (σ : Type) where
  VisitComparison : Expression → σ → σ
  VisitBinary : Expression → σ → σ
  VisitUnary : Expression → σ → σ
  VisitDeref : Expression → σ → σ
  VisitAddressof : Expression → σ → σ
  VisitFnCall : Expression → σ → σ
  VisitStructConstruction : Expression → σ → σ
  VisitFieldAccess : Expression → σ → σ
  VisitBlock : Expression → σ → σ
  VisitIf : Expression → σ → σ
  VisitLiteral : Expression → σ → σ
  VisitVarAccess : Expression → σ → σ

/-- `Expression::Accept` with its overrides: each class passes `this` to its
own visitor method. -/
def Expression.Accept {σ : Type} (self : Expression) (visitor : Visitor σ) :
    σ → σ :=
  match self with
  | .ComparisonExpression _ _ _ => visitor.VisitComparison self
  | .BinaryExpression _ _ _ => visitor.VisitBinary self
  | .UnaryExpression _ _ => visitor.VisitUnary self
  | .Lvalue (.DereferenceExpression _ _ _ _) => visitor.VisitDeref self
  | .AddressofExpression _ _ _ => visitor.VisitAddressof self
  | .FnCallExpression _ _ _ => visitor.VisitFnCall self
  | .StructConstructionExpression _ _ _ =>
    visitor.VisitStructConstruction self
  | .Lvalue (.FieldAccessExpression _ _ _ _ _ _) =>
    visitor.VisitFieldAccess self
  | .BlockExpression _ _ => visitor.VisitBlock self
  | .IfExpression _ _ _ => visitor.VisitIf self
  | .LiteralExpression _ _ => visitor.VisitLiteral self
  | .Lvalue (.VarAccessExpression _ _ _) => visitor.VisitVarAccess self

/-- The names of the twelve visitor methods. -/
inductive VisitMethod where
  | VisitComparison | VisitBinary | VisitUnary | VisitDeref | VisitAddressof
  | VisitFnCall | VisitStructConstruction | VisitFieldAccess | VisitBlock
  | VisitIf | VisitLiteral | VisitVarAccess
  deriving DecidableEq, Repr

/-- A visitor that only logs its calls: every method appends its own name
and the node it received to the log. -/
def callLogger : Visitor (List (VisitMethod × Expression)) where
  VisitComparison n log := log ++ [(VisitMethod.VisitComparison, n)]
  VisitBinary n log := log ++ [(VisitMethod.VisitBinary, n)]
  VisitUnary n log := log ++ [(VisitMethod.VisitUnary, n)]
  VisitDeref n log := log ++ [(VisitMethod.VisitDeref, n)]
  VisitAddressof n log := log ++ [(VisitMethod.VisitAddressof, n)]
  VisitFnCall n log := log ++ [(VisitMethod.VisitFnCall, n)]
  VisitStructConstruction n log :=
    log ++ [(VisitMethod.VisitStructConstruction, n)]
  VisitFieldAccess n log := log ++ [(VisitMethod.VisitFieldAccess, n)]
  VisitBlock n log := log ++ [(VisitMethod.VisitBlock, n)]
  VisitIf n log := log ++ [(VisitMethod.VisitIf, n)]
  VisitLiteral n log := log ++ [(VisitMethod.VisitLiteral, n)]
  VisitVarAccess n log := log ++ [(VisitMethod.VisitVarAccess, n)]

/-! ## Field-access chains -/

/-- The members of a `FieldAccessExpression` other than its operand. -/
structure FieldAccessMembers where
  type_ : Option Ty
  struct_name_ : Token
  field_name_ : Token
  is_direct_ : Bool
  address_ : Int

/-- The lvalue obtained from `root` by one `FieldAccessExpression` per entry
of `projections`, innermost first, each in the given annotation state. -/
def fieldAccessChain (root : LvalueExpression) :
    List FieldAccessMembers → LvalueExpression
  | [] => root
  | m :: projections =>
    fieldAccessChain
      (LvalueExpression.FieldAccessExpression root m.type_ m.struct_name_
        m.field_name_ m.is_direct_ m.address_)
      projections

/-! ## Sample nodes -/

/-- The token of an identifier `text`. -/
def ident (text : String) : Token := ⟨0, text, 0⟩

/-- The type `int`. -/
def intTy : Ty := Ty.Primitive "int"

/-- The variable access `p`, as the parser builds it. -/
def varP : LvalueExpression := VarAccessExpression.new (ident "p")

/-- The dereference `*p`, as the parser builds it. -/
def derefP : LvalueExpression :=
  DereferenceExpression.new (ident "*") (Expression.Lvalue varP)

/-- The field access `(*p).field`, as the parser builds it. -/
def derefPField : LvalueExpression :=
  FieldAccessExpression.new (ident "S") (ident "field") derefP

/-- The variable access `a`, as the parser builds it. -/
def varA : LvalueExpression := VarAccessExpression.new (ident "a")

/-- The field access `a.b`, as the parser builds it. -/
def varAB : LvalueExpression :=
  FieldAccessExpression.new (ident "A") (ident "b") varA

/-- The field access `a.b.c`, as the parser builds it. -/
def varABC : LvalueExpression :=
  FieldAccessExpression.new (ident "B") (ident "c") varAB

/-- The expression `&p`, as the parser builds it. -/
def addressofP : Expression := AddressofExpression.new (ident "&") varP

/-- A literal `1` whose `type_` member has been set to `int`. -/
def typedLiteral : Expression :=
  Expression.LiteralExpression (some intTy) (ident "1")

/-! ## The type checker on lvalues and `Addressof` -/

/-- The errors of a type-checking visit: the two user-facing errors that
concern lvalues, and the internal-consistency fault. -/
inductive CheckError where
  | UnknownField (field : String)
  | NotAddressable
  | InternalFault (fault : Fault)
  deriving DecidableEq, Repr

/-- A fault raised by a node method inside the checker stays a fault. -/
def liftFault {α : Type} : Except Fault α → Except CheckError α
  | Except.ok a => Except.ok a
  | Except.error f => Except.error (CheckError.InternalFault f)

/-- Modelled from the spec: the layout of a struct (the struct field lookup
of the type representation is not among the sources): its fields in
declaration order, each with its byte offset. -/
structure StructLayout where
  fields : List (String × Int)

/-- Modelled from the spec: the struct lookup of a named field (not among the
sources). It returns the offset of the first field of that name and fails
with `UnknownField` if there is none. -/
def StructLayout.offsetOf (layout : StructLayout) (field : String) :
    Except CheckError Int :=
  match layout.fields.find? (fun entry => entry.1 == field) with
  | some entry => Except.ok entry.2
  | none => Except.error (CheckError.UnknownField field)

/-- Modelled from the spec: the address and directness part of the type
checker visit of a `FieldAccess` node (the checker is not among the sources).
The field is looked up in the layout of the operand; when the operand is
direct the address becomes the operand address plus the byte offset of the
field (the sum is the one of the integers), otherwise the address is left
as it is and the node is marked not direct. -/
def resolveFieldAccess (layout : StructLayout) :
    LvalueExpression → Except CheckError LvalueExpression
  | .FieldAccessExpression operand type_ struct_name_ field_name_ _ address_ =>
    match layout.offsetOf field_name_.text with
    | Except.error e => Except.error e
    | Except.ok offset =>
      if operand.IsDirect then
        match liftFault operand.GetAddress with
        | Except.error e => Except.error e
        | Except.ok base =>
          Except.ok (LvalueExpression.FieldAccessExpression operand type_
            struct_name_ field_name_ true (base + offset))
      else
        Except.ok (LvalueExpression.FieldAccessExpression operand type_
          struct_name_ field_name_ false address_)
  | node => Except.ok node

/-- Modelled from the spec: the type checker visit of an `Addressof` node
(the checker is not among the sources). An operand that is not direct is
rejected with `NotAddressable`; otherwise the node is annotated with the
pointer type to the type of the operand. -/
def checkAddressof : Expression → Except CheckError Expression
  | .AddressofExpression ampersand_ operand_ _ =>
    if operand_.IsDirect then
      match liftFault operand_.GetType with
      | Except.error e => Except.error e
      | Except.ok none =>
        Except.error (CheckError.InternalFault ⟨"operand has no type"⟩)
      | Except.ok (some t) =>
        Except.ok (Expression.AddressofExpression ampersand_ operand_
          (some ⟨t⟩))
    else Except.error CheckError.NotAddressable
  | node => Except.ok node

/-! ## Shape of an lvalue and cost of `IsDirect` -/

/-- The classes met along the `struct_expression_` links of an lvalue, from
the node down to the root, with every member other than those links
forgotten. -/
inductive LvalueShape where
  | Dereference
  | FieldAccess (operand : LvalueShape)
  | VarAccess
  deriving DecidableEq, Repr

/-- The shape of an lvalue node. -/
def LvalueExpression.shape : LvalueExpression → LvalueShape
  | .DereferenceExpression _ _ _ _ => LvalueShape.Dereference
  | .FieldAccessExpression struct_expression_ _ _ _ _ _ =>
    LvalueShape.FieldAccess struct_expression_.shape
  | .VarAccessExpression _ _ _ => LvalueShape.VarAccess

/-- The number of `FieldAccessExpression` nodes above the root. -/
def LvalueExpression.fieldDepth : LvalueExpression → Nat
  | .FieldAccessExpression struct_expression_ _ _ _ _ _ =>
    struct_expression_.fieldDepth + 1
  | _ => 0

/-- `IsDirect` run with a budget of virtual calls: every call of `IsDirect`,
the outer one included, uses one unit, and `none` means that the budget ran
out before a value was returned. The bodies are those of
`LvalueExpression.IsDirect`. -/
def LvalueExpression.IsDirectWithin : Nat → LvalueExpression → Option Bool
  | 0, _ => none
  | _ + 1, .DereferenceExpression _ _ _ _ => some false
  | calls + 1, .FieldAccessExpression struct_expression_ _ _ _ _ _ =>
    struct_expression_.IsDirectWithin calls
  | _ + 1, .VarAccessExpression _ _ _ => some true

/-! ## The command line (`app/etc_cli.cpp`) -/

/-- What the command-line front-end writes to the standard error stream. -/
inductive Diagnostic where
  | InvalidOption (program : String) (option : Char)
  | OptionRequiresArgument (program : String) (option : Char)
  | Usage (program : String)
  deriving DecidableEq, Repr

/-- The variables `optind`, `optarg` and the scanning position that `getopt`
keeps between calls; an empty `nextchar` means that the next call starts a
new element of `argv`. -/
structure GetoptState where
  optind : Nat
  nextchar : List Char
  optarg : Option String
  deriving DecidableEq, Repr

/-- The state before the first call: `optind = 1`. -/
def GetoptState.initial : GetoptState := ⟨1, [], none⟩

/-- The outcome of one call of `getopt`: the returned `int`, the state left
behind and what was printed. -/
structure GetoptResult where
  ret : Int
  state : GetoptState
  printed : List Diagnostic
  deriving DecidableEq, Repr

/-- The C function `strchr` on the characters of a string: the suffix that
starts at the first occurrence of `c`. -/
def strchr : List Char → Char → Option (List Char)
  | [], _ => none
  | x :: rest, c => if x = c then some (x :: rest) else strchr rest c

/-- The part of `getopt` that handles the short option character `c` of the
element with index `optind`; `rest` is what follows `c` in that element and
`optstring` the option string without its ordering prefix. -/
def getoptShort (argv : List String) (optstring : List Char) (optind : Nat)
    (c : Char) (rest : List Char) : GetoptResult :=
  let program := argv.headD ""
  let print_errors := optstring.head? != some ':'
  -- optind is incremented when the last character of the element is reached
  let optind := if rest.isEmpty then optind + 1 else optind
  let invalid : GetoptResult :=
    ⟨('?'.toNat : Int), ⟨optind, rest, none⟩,
      if print_errors then [Diagnostic.InvalidOption program c] else []⟩
  match strchr optstring c with
  | none => invalid
  | some temp =>
    if c = ':' ∨ c = ';' then invalid
    else
      match temp with
      | _ :: ':' :: ':' :: _ =>
        -- the option accepts an argument optionally
        if rest.isEmpty then ⟨(c.toNat : Int), ⟨optind, [], none⟩, []⟩
        else ⟨(c.toNat : Int), ⟨optind + 1, [], some (String.mk rest)⟩, []⟩
      | _ :: ':' :: _ =>
        -- the option requires an argument
        if !rest.isEmpty then
          ⟨(c.toNat : Int), ⟨optind + 1, [], some (String.mk rest)⟩, []⟩
        else if optind ≥ argv.length then
          ⟨if optstring.head? = some ':' then (':'.toNat : Int)
            else ('?'.toNat : Int),
            ⟨optind, [], none⟩,
            if print_errors then
              [Diagnostic.OptionRequiresArgument program c]
            else []⟩
        else
          ⟨(c.toNat : Int), ⟨optind + 1, [], argv.get? optind⟩, []⟩
      | _ => ⟨(c.toNat : Int), ⟨optind, rest, none⟩, []⟩

/-- Modelled from the spec: `getopt` of the C library (declared in
`<getopt.h>`, not among the sources), as its manual page specifies it for
short options when the option string begins with `-`: elements are scanned
in order, an element that is not an option is returned as the argument of
an option with code 1, `--` ends the scan, a character followed by `:` in
the option string requires an argument (the rest of the element, or else
the next element), and `?` is returned for an unknown character or a
missing argument. A leading `-` or `+` of `optstring` is not an option
character. -/
def getopt (argv : List String) (optstring : String) (d : GetoptState) :
    GetoptResult :=
  let options : List Char :=
    match optstring.toList with
    | '-' :: options => options
    | '+' :: options => options
    | options => options
  match d.nextchar with
  | c :: rest => getoptShort argv options d.optind c rest
  | [] =>
    match argv.get? d.optind with
    | none => ⟨-1, ⟨d.optind, [], none⟩, []⟩
    | some element =>
      if element = "--" then ⟨-1, ⟨argv.length, [], none⟩, []⟩
      else
        match element.toList with
        | '-' :: c :: rest => getoptShort argv options d.optind c rest
        | _ => ⟨1, ⟨d.optind + 1, [], some element⟩, []⟩

/-- The calls that `ParseOptions` makes on the `CompilationDriver` (declared
in `driver/compil_driver.hpp`, not among the sources); the argument is the
`optarg` pointer, `none` when it is null. -/
inductive DriverCall where
  | SetTestBuild
  | SetMainModule (optarg : Option String)
  | SetStdlibPath (optarg : Option String)
  deriving DecidableEq, Repr

/-- How a run of `ParseOptions` ends: it returns to `main`, it calls `exit`,
or the step budget of the embedding ran out. -/
inductive Completion where
  | Returned
  | Exited (status : Nat)
  | OutOfSteps
  deriving DecidableEq, Repr

/-- What a run of `ParseOptions` has done: the driver calls in order, the
text on the standard error stream, and how the run ended. -/
structure ParseOutcome where
  calls : List DriverCall
  printed : List Diagnostic
  completion : Completion
  deriving DecidableEq, Repr

/-- The value of `EXIT_FAILURE`. -/
def EXIT_FAILURE : Nat := 1

/-- The conversion of the `int` that `getopt` returns to `char opt` (a signed
8-bit `char`, as on x86-64). -/
def toChar (value : Int) : Int := (value + 128) % 256 - 128

/-- The `while` loop of `ParseOptions`, one iteration per unit of `steps`. -/
def ParseOptions.loop (argv : List String) :
    Nat → GetoptState → List DriverCall → List Diagnostic → ParseOutcome
  | 0, _, calls, printed => ⟨calls, printed, Completion.OutOfSteps⟩
  | steps + 1, d, calls, printed =>
    let r := getopt argv "-t:-m:-l:" d
    let opt := toChar r.ret
    let printed := printed ++ r.printed
    if opt = -1 then ⟨calls, printed, Completion.Returned⟩
    else if opt = ('t'.toNat : Int) then
      ParseOptions.loop argv steps r.state
        (calls ++ [DriverCall.SetTestBuild]) printed
    else if opt = ('m'.toNat : Int) then
      ParseOptions.loop argv steps r.state
        (calls ++ [DriverCall.SetMainModule r.state.optarg]) printed
    else if opt = ('l'.toNat : Int) then
      ParseOptions.loop argv steps r.state
        (calls ++ [DriverCall.SetStdlibPath r.state.optarg]) printed
    else
      ⟨calls, printed ++ [Diagnostic.Usage (argv.headD "")],
        Completion.Exited EXIT_FAILURE⟩

/-- A number of iterations that the loop cannot exceed: every call of
`getopt` that does not end the scan consumes a character or an element. -/
def ParseOptions.steps (argv : List String) : Nat :=
  (argv.map String.length).sum + argv.length + 1

/-- `ParseOptions(driver, argc, argv)`; `argv` holds the `argc` strings. -/
def ParseOptions (argv : List String) : ParseOutcome :=
  ParseOptions.loop argv (ParseOptions.steps argv) GetoptState.initial [] []

/-- The command line `etc -t -m M -l L`. -/
def argvTestFirst (M L : String) : List String :=
  ["etc", "-t", "-m", M, "-l", L]

/-- The command line `etc -m M -l L -t`. -/
def argvTestLast (M L : String) : List String :=
  ["etc", "-m", M, "-l", L, "-t"]

/-- The layout of `struct S { x: int, y: bool }`: `x` at offset 0 and `y`
right after it, at the size of an `int`. -/
def layoutS (sizeofInt : Int) : StructLayout :=
  ⟨[("x", 0), ("y", sizeofInt)]⟩

/-- The type `struct S { x: int, y: bool }`. -/
def structS : Ty :=
  Ty.Struct "S" [("x", Ty.Primitive "int"), ("y", Ty.Primitive "bool")]

/-- The access to a variable `s` of type `S` that the checker has resolved
at `address`. -/
def varS (address : Int) : LvalueExpression :=
  LvalueExpression.VarAccessExpression (ident "s") (some structS) address

/-- The field access `s.y` as the parser builds it over `varS address`. -/
def varSY (address : Int) : LvalueExpression :=
  FieldAccessExpression.new (ident "S") (ident "y") (varS address)

/-- The variable access `x`, annotated with the type `int` at address 8. -/
def typedVarX : LvalueExpression :=
  LvalueExpression.VarAccessExpression (ident "x") (some intTy) 8

/-- A field access of the shape of `a.b` with other tokens, a type, an
address, and the `is_direct_` member set to false. -/
def annotatedField : LvalueExpression :=
  LvalueExpression.FieldAccessExpression typedVarX (some intTy) (ident "T")
    (ident "g") false 12

/-! ## Properties -/

/-- A field access is exactly as direct as the root it projects from. -/
theorem IsDirect_fieldAccessChain (projections : List FieldAccessMembers) :
    ∀ root : LvalueExpression,
      (fieldAccessChain root projections).IsDirect = root.IsDirect := by
  induction projections with
  | nil => intro root; rfl
  | cons m rest ih =>
    intro root
    show (fieldAccessChain _ rest).IsDirect = root.IsDirect
    rw [ih]
    rfl

/-- Freshly constructed nodes of the eleven classes other than
`AddressofExpression` fault in `GetType`. -/
theorem GetType_fresh_faults (l r e : Expression) (op : Token)
    (lv : LvalueExpression) (args : List Expression)
    (stmts : List Statement) (final fb : Option Expression) :
    (∃ f, (ComparisonExpression.new l op r).GetType = Except.error f) ∧
    (∃ f, (BinaryExpression.new l op r).GetType = Except.error f) ∧
    (∃ f, (UnaryExpression.new op e).GetType = Except.error f) ∧
    (∃ f, (Expression.Lvalue (DereferenceExpression.new op e)).GetType
      = Except.error f) ∧
    (∃ f, (FnCallExpression.new op args).GetType = Except.error f) ∧
    (∃ f, (StructConstructionExpression.new op args).GetType
      = Except.error f) ∧
    (∃ f, (Expression.Lvalue (FieldAccessExpression.new op op lv)).GetType
      = Except.error f) ∧
    (∃ f, (BlockExpression.new stmts final).GetType = Except.error f) ∧
    (∃ f, (IfExpression.new l r fb).GetType = Except.error f) ∧
    (∃ f, (LiteralExpression.new op).GetType = Except.error f) ∧
    (∃ f, (Expression.Lvalue (VarAccessExpression.new op)).GetType
      = Except.error f) := by
  refine ⟨⟨_, rfl⟩, ⟨_, rfl⟩, ⟨_, rfl⟩, ⟨_, rfl⟩, ⟨_, rfl⟩, ⟨_, rfl⟩, ⟨_, rfl⟩,
    ⟨_, rfl⟩, ?_, ⟨_, rfl⟩, ⟨_, rfl⟩⟩
  cases fb <;> exact ⟨_, rfl⟩

/-- C1: a freshly constructed `AddressofExpression` (here `&p`) does not fault
in `GetType`: the call returns normally, and what it returns is the null
type pointer. -/
theorem addressof_fresh_GetType_returns_null :
    addressofP.GetType = Except.ok none ∧
    ¬ ∃ f, addressofP.GetType = Except.error f := by
  refine ⟨rfl, ?_⟩
  rintro ⟨f, hf⟩
  exact Except.noConfusion hf

/-- C2 (as stated, refuted): a literal whose `type_` member has been set to
`int` does not return `int` from `GetType`; the call faults. -/
theorem literal_typed_GetType_faults :
    typedLiteral.GetType = Except.error ⟨"Unreachable!"⟩ ∧
    typedLiteral.GetType ≠ Except.ok (some intTy) := by
  refine ⟨rfl, ?_⟩
  intro h
  exact Except.noConfusion h

/-- C2 (amended): `GetType` reads the slot in the five classes that read one.
Once `type_` holds `t`, a Dereference, StructConstruction, FieldAccess or
VarAccess node returns `t`, and an Addressof node whose slot holds the pointer
type `p` returns `p`, none of them faulting. In the other seven classes
(Comparison, Binary, Unary, FnCall, Block, If, Literal) `GetType` faults with
"Unreachable!" whatever the node holds, the `type_` member of a Literal
included. -/
theorem GetType_reads_slot_or_is_unreachable (t : Ty) (p : PointerType)
    (tok tok2 : Token) (l r : Expression) (lv : LvalueExpression)
    (args : List Expression) (stmts : List Statement)
    (final fb : Option Expression) (address : Int) (d native : Bool)
    (any : Option Ty) :
    ((Expression.Lvalue
        (LvalueExpression.DereferenceExpression tok l address (some t))).GetType
      = Except.ok (some t)) ∧
    ((Expression.AddressofExpression tok lv (some p)).GetType
      = Except.ok (some p.toType)) ∧
    ((Expression.StructConstructionExpression tok args (some t)).GetType
      = Except.ok (some t)) ∧
    ((Expression.Lvalue
        (LvalueExpression.FieldAccessExpression lv (some t) tok tok2 d
          address)).GetType
      = Except.ok (some t)) ∧
    ((Expression.Lvalue
        (LvalueExpression.VarAccessExpression tok (some t) address)).GetType
      = Except.ok (some t)) ∧
    ((Expression.ComparisonExpression l tok r).GetType
      = Except.error ⟨"Unreachable!"⟩) ∧
    ((Expression.BinaryExpression l tok r).GetType
      = Except.error ⟨"Unreachable!"⟩) ∧
    ((Expression.UnaryExpression tok l).GetType
      = Except.error ⟨"Unreachable!"⟩) ∧
    ((Expression.FnCallExpression tok args native).GetType
      = Except.error ⟨"Unreachable!"⟩) ∧
    ((Expression.BlockExpression stmts final).GetType
      = Except.error ⟨"Unreachable!"⟩) ∧
    ((Expression.IfExpression l r fb).GetType
      = Except.error ⟨"Unreachable!"⟩) ∧
    ((Expression.LiteralExpression any tok).GetType
      = Except.error ⟨"Unreachable!"⟩) :=
  ⟨rfl, rfl, rfl, rfl, rfl, rfl, rfl, rfl, rfl, rfl, rfl, rfl⟩

/-- C3 (as stated, refuted): the field access `(*p).field` is not direct, yet
`GetAddress` on it returns normally, with the stored `address_` (0). -/
theorem fieldAccess_of_deref_GetAddress_returns :
    derefPField.IsDirect = false ∧
    derefPField.GetAddress = Except.ok 0 ∧
    ¬ ∃ f, derefPField.GetAddress = Except.error f := by
  refine ⟨rfl, rfl, ?_⟩
  rintro ⟨f, hf⟩
  exact Except.noConfusion hf

/-- C3 (amended): an lvalue node whose `IsDirect` is false is either a
Dereference, and then `GetAddress` faults, or a FieldAccess over an operand
that is not direct, and then `GetAddress` returns the stored `address_`
without a fault. -/
theorem GetAddress_of_non_direct (n : LvalueExpression)
    (h : n.IsDirect = false) :
    (∃ star operand address type,
      n = LvalueExpression.DereferenceExpression star operand address type ∧
      n.GetAddress = Except.error
        ⟨"Cannot take the address of pointer dereference at compile-time\n"⟩) ∨
    (∃ operand type struct_name field_name is_direct address,
      n = LvalueExpression.FieldAccessExpression operand type struct_name
        field_name is_direct address ∧
      operand.IsDirect = false ∧
      n.GetAddress = Except.ok address) := by
  cases n with
  | DereferenceExpression star operand address type =>
    exact Or.inl ⟨star, operand, address, type, rfl, rfl⟩
  | FieldAccessExpression operand type struct_name field_name is_direct address =>
    exact Or.inr ⟨operand, type, struct_name, field_name, is_direct, address,
      rfl, h, rfl⟩
  | VarAccessExpression name type address =>
    exact absurd h (by simp [LvalueExpression.IsDirect])

/-- Witness of `GetAddress_of_non_direct` at `(*p).field`. -/
theorem GetAddress_of_non_direct_witness :
    derefPField.IsDirect = false ∧
    ((∃ star operand address type,
      derefPField
        = LvalueExpression.DereferenceExpression star operand address type ∧
      derefPField.GetAddress = Except.error
        ⟨"Cannot take the address of pointer dereference at compile-time\n"⟩) ∨
    (∃ operand type struct_name field_name is_direct address,
      derefPField = LvalueExpression.FieldAccessExpression operand type
        struct_name field_name is_direct address ∧
      operand.IsDirect = false ∧
      derefPField.GetAddress = Except.ok address)) :=
  ⟨rfl, GetAddress_of_non_direct derefPField rfl⟩

/-- C4: `IsDirect` of a FieldAccess node equals `IsDirect` of its struct
operand, whatever the operand and the other members are. -/
theorem FieldAccess_IsDirect_eq_operand (e : LvalueExpression)
    (type : Option Ty) (struct_name field_name : Token) (is_direct : Bool)
    (address : Int) :
    (LvalueExpression.FieldAccessExpression e type struct_name field_name
      is_direct address).IsDirect = e.IsDirect :=
  rfl

/-- C5: directness is decided by the root of a field-access chain. Over a
VarAccess root every node of the chain (every prefix of the projections, the
root itself included) is direct; over a Dereference root none is. In
particular `a`, `a.b` and `a.b.c` are direct and `(*p).field` is not. -/
theorem IsDirect_decided_by_root (projections : List FieldAccessMembers)
    (k : Nat) (tok : Token) (type : Option Ty) (address : Int)
    (operand : Expression) :
    (fieldAccessChain (LvalueExpression.VarAccessExpression tok type address)
      (projections.take k)).IsDirect = true ∧
    (fieldAccessChain
      (LvalueExpression.DereferenceExpression tok operand address type)
      (projections.take k)).IsDirect = false ∧
    varA.IsDirect = true ∧ varAB.IsDirect = true ∧ varABC.IsDirect = true ∧
    derefPField.IsDirect = false := by
  refine ⟨?_, ?_, rfl, rfl, rfl, rfl⟩
  · rw [IsDirect_fieldAccessChain]; rfl
  · rw [IsDirect_fieldAccessChain]; rfl

/-- C6: `If(c, t)` built without a false branch is the same node as
`If(c, t, Block([]))`, where the block has no statements and no trailing
expression. Every node the constructor builds has a false branch, and every
visitor and every function of the node gives the same result on both. -/
theorem If_without_false_branch_eq_empty_block (c t : Expression) :
    IfExpression.new c t none
      = IfExpression.new c t (some (BlockExpression.new [] none)) ∧
    IfExpression.new c t none
      = Expression.IfExpression c t
          (some (Expression.BlockExpression [] none)) ∧
    (∀ fb : Option Expression, ∃ f : Expression,
      IfExpression.new c t fb = Expression.IfExpression c t (some f)) ∧
    (∀ (σ : Type) (v : Visitor σ) (s : σ),
      (IfExpression.new c t none).Accept v s
        = (IfExpression.new c t (some (BlockExpression.new [] none))).Accept
            v s) ∧
    (∀ (α : Type) (g : Expression → α),
      g (IfExpression.new c t none)
        = g (IfExpression.new c t (some (BlockExpression.new [] none)))) := by
  refine ⟨rfl, rfl, ?_, fun _ _ _ => rfl, fun _ _ => rfl⟩
  intro fb
  cases fb with
  | none => exact ⟨_, rfl⟩
  | some e => exact ⟨e, rfl⟩

/-- C7: `Accept` calls the one visitor method of the node's own class, once,
with the node itself: the state it returns is the state that method returns
on the node, and the call log of the logging visitor holds exactly that one
call. No class is left with the empty base body. -/
theorem Accept_calls_own_method (σ : Type) (v : Visitor σ) (s : σ)
    (n : Expression) :
    match n with
    | .ComparisonExpression _ _ _ =>
      n.Accept v s = v.VisitComparison n s ∧
      n.Accept callLogger [] = [(VisitMethod.VisitComparison, n)]
    | .BinaryExpression _ _ _ =>
      n.Accept v s = v.VisitBinary n s ∧
      n.Accept callLogger [] = [(VisitMethod.VisitBinary, n)]
    | .UnaryExpression _ _ =>
      n.Accept v s = v.VisitUnary n s ∧
      n.Accept callLogger [] = [(VisitMethod.VisitUnary, n)]
    | .Lvalue (.DereferenceExpression _ _ _ _) =>
      n.Accept v s = v.VisitDeref n s ∧
      n.Accept callLogger [] = [(VisitMethod.VisitDeref, n)]
    | .AddressofExpression _ _ _ =>
      n.Accept v s = v.VisitAddressof n s ∧
      n.Accept callLogger [] = [(VisitMethod.VisitAddressof, n)]
    | .FnCallExpression _ _ _ =>
      n.Accept v s = v.VisitFnCall n s ∧
      n.Accept callLogger [] = [(VisitMethod.VisitFnCall, n)]
    | .StructConstructionExpression _ _ _ =>
      n.Accept v s = v.VisitStructConstruction n s ∧
      n.Accept callLogger [] = [(VisitMethod.VisitStructConstruction, n)]
    | .Lvalue (.FieldAccessExpression _ _ _ _ _ _) =>
      n.Accept v s = v.VisitFieldAccess n s ∧
      n.Accept callLogger [] = [(VisitMethod.VisitFieldAccess, n)]
    | .BlockExpression _ _ =>
      n.Accept v s = v.VisitBlock n s ∧
      n.Accept callLogger [] = [(VisitMethod.VisitBlock, n)]
    | .IfExpression _ _ _ =>
      n.Accept v s = v.VisitIf n s ∧
      n.Accept callLogger [] = [(VisitMethod.VisitIf, n)]
    | .LiteralExpression _ _ =>
      n.Accept v s = v.VisitLiteral n s ∧
      n.Accept callLogger [] = [(VisitMethod.VisitLiteral, n)]
    | .Lvalue (.VarAccessExpression _ _ _) =>
      n.Accept v s = v.VisitVarAccess n s ∧
      n.Accept callLogger [] = [(VisitMethod.VisitVarAccess, n)] := by
  cases n with
  | Lvalue node => cases node <;> exact ⟨rfl, rfl⟩
  | _ => exact ⟨rfl, rfl⟩

/-- C8: `GetAddress` of a Dereference node faults, whatever its operand and
whatever its `address_` and `type_` members hold; it returns no address. -/
theorem Dereference_GetAddress_faults (star : Token) (operand : Expression)
    (address : Int) (type : Option Ty) :
    (LvalueExpression.DereferenceExpression star operand address
      type).GetAddress
      = Except.error
        ⟨"Cannot take the address of pointer dereference at compile-time\n"⟩ ∧
    ∀ a : Int,
      (LvalueExpression.DereferenceExpression star operand address
        type).GetAddress ≠ Except.ok a := by
  refine ⟨rfl, ?_⟩
  intro a h
  exact Except.noConfusion h

/-- C9: `IsDirect` of a Dereference node is false, whatever its operand (a
direct VarAccess included) and whatever its annotation members hold. -/
theorem Dereference_IsDirect_false (star : Token) (operand : Expression)
    (address : Int) (type : Option Ty) :
    (LvalueExpression.DereferenceExpression star operand address
      type).IsDirect = false ∧
    (DereferenceExpression.new star (Expression.Lvalue varA)).IsDirect
      = false :=
  ⟨rfl, rfl⟩

/-- C10 (as stated, refuted): `GetAddress` on the freshly constructed
variable access `p` does not fault; it returns the number 0. -/
theorem varAccess_fresh_GetAddress_returns_zero :
    varP.GetAddress = Except.ok 0 ∧
    ¬ ∃ f, varP.GetAddress = Except.error f := by
  refine ⟨rfl, ?_⟩
  rintro ⟨f, hf⟩
  exact Except.noConfusion hf

/-- C10 (amended): the address slot is a plain integer that starts at 0 and
is read without a check. `GetAddress` on a freshly constructed VarAccess or
FieldAccess node returns 0 and does not fault, which is also what it returns
on a node of the same class whose address has been resolved to 0. -/
theorem GetAddress_fresh_returns_zero (name struct_name field_name : Token)
    (lvalue : LvalueExpression) (type : Option Ty) (is_direct : Bool) :
    (VarAccessExpression.new name).GetAddress = Except.ok 0 ∧
    (FieldAccessExpression.new struct_name field_name lvalue).GetAddress
      = Except.ok 0 ∧
    (VarAccessExpression.new name).GetAddress
      = (LvalueExpression.VarAccessExpression name type 0).GetAddress ∧
    (FieldAccessExpression.new struct_name field_name lvalue).GetAddress
      = (LvalueExpression.FieldAccessExpression lvalue type struct_name
          field_name is_direct 0).GetAddress :=
  ⟨rfl, rfl, rfl, rfl⟩

/-- Two lvalues of the same shape are equally direct. -/
theorem IsDirect_eq_of_shape_eq :
    ∀ n m : LvalueExpression, n.shape = m.shape → n.IsDirect = m.IsDirect
  | .DereferenceExpression _ _ _ _, .DereferenceExpression _ _ _ _, _ => rfl
  | .DereferenceExpression _ _ _ _, .FieldAccessExpression _ _ _ _ _ _, h => by
    simp [LvalueExpression.shape] at h
  | .DereferenceExpression _ _ _ _, .VarAccessExpression _ _ _, h => by
    simp [LvalueExpression.shape] at h
  | .FieldAccessExpression _ _ _ _ _ _, .DereferenceExpression _ _ _ _, h => by
    simp [LvalueExpression.shape] at h
  | .FieldAccessExpression e _ _ _ _ _, .FieldAccessExpression e2 _ _ _ _ _,
      h => by
    simp only [LvalueExpression.shape, LvalueShape.FieldAccess.injEq] at h
    simpa [LvalueExpression.IsDirect] using IsDirect_eq_of_shape_eq e e2 h
  | .FieldAccessExpression _ _ _ _ _ _, .VarAccessExpression _ _ _, h => by
    simp [LvalueExpression.shape] at h
  | .VarAccessExpression _ _ _, .DereferenceExpression _ _ _ _, h => by
    simp [LvalueExpression.shape] at h
  | .VarAccessExpression _ _ _, .FieldAccessExpression _ _ _ _ _ _, h => by
    simp [LvalueExpression.shape] at h
  | .VarAccessExpression _ _ _, .VarAccessExpression _ _ _, _ => rfl

/-- A budget of one call per field access above the root, plus one for the
root, is enough for `IsDirect`, and so is any larger budget. -/
theorem IsDirectWithin_enough :
    ∀ (n : LvalueExpression) (extra : Nat),
      n.IsDirectWithin (n.fieldDepth + 1 + extra) = some n.IsDirect
  | .DereferenceExpression _ _ _ _, extra => by
    simp [LvalueExpression.fieldDepth, Nat.add_comm 1 extra,
      LvalueExpression.IsDirectWithin, LvalueExpression.IsDirect]
  | .FieldAccessExpression e _ _ _ _ _, extra => by
    have ih := IsDirectWithin_enough e extra
    have hbudget : e.fieldDepth + 1 + 1 + extra
        = (e.fieldDepth + 1 + extra) + 1 := by omega
    simp only [LvalueExpression.fieldDepth, hbudget,
      LvalueExpression.IsDirectWithin, LvalueExpression.IsDirect]
    exact ih
  | .VarAccessExpression _ _ _, extra => by
    simp [LvalueExpression.fieldDepth, Nat.add_comm 1 extra,
      LvalueExpression.IsDirectWithin, LvalueExpression.IsDirect]

/-- With one call fewer than the field accesses above the root plus one,
`IsDirect` has not returned yet. -/
theorem IsDirectWithin_too_few :
    ∀ n : LvalueExpression, n.IsDirectWithin n.fieldDepth = none
  | .DereferenceExpression _ _ _ _ => rfl
  | .FieldAccessExpression e _ _ _ _ _ => by
    simp only [LvalueExpression.fieldDepth, LvalueExpression.IsDirectWithin]
    exact IsDirectWithin_too_few e
  | .VarAccessExpression _ _ _ => rfl

/-- The number of loop iterations allowed on `etc -m M -l L -t`. -/
theorem steps_argvTestLast (M L : String) :
    ParseOptions.steps (argvTestLast M L) = (M.length + L.length + 12) + 4 := by
  have h1 : "etc".length = 3 := by decide
  have h2 : "-m".length = 2 := by decide
  have h3 : "-l".length = 2 := by decide
  have h4 : "-t".length = 2 := by decide
  simp [ParseOptions.steps, argvTestLast]
  omega

/-- C11: when the struct operand of a FieldAccess node is direct and resolved
at address `A`, and the accessed field lies at byte offset `k` in the layout
of the operand, the checker resolves the node and `GetAddress` on the
resolved node returns `A + k`; the node is direct. -/
theorem FieldAccess_address_is_base_plus_offset (layout : StructLayout)
    (operand : LvalueExpression) (type : Option Ty)
    (struct_name field_name : Token) (is_direct : Bool) (address A k : Int)
    (hdirect : operand.IsDirect = true)
    (hbase : operand.GetAddress = Except.ok A)
    (hfield : layout.offsetOf field_name.text = Except.ok k) :
    ∃ node : LvalueExpression,
      resolveFieldAccess layout
        (LvalueExpression.FieldAccessExpression operand type struct_name
          field_name is_direct address) = Except.ok node ∧
      node.GetAddress = Except.ok (A + k) ∧
      node.IsDirect = true := by
  refine ⟨LvalueExpression.FieldAccessExpression operand type struct_name
    field_name true (A + k), ?_, rfl, hdirect⟩
  simp [resolveFieldAccess, hfield, hdirect, hbase, liftFault]

/-- Witness of `FieldAccess_address_is_base_plus_offset`: with `int` of size
4 and the variable `s` of type `S` at address 1000, the field `y` of `s.y`
lies at offset 4 and the resolved node has address 1004. -/
theorem FieldAccess_address_is_base_plus_offset_witness :
    (varS 1000).IsDirect = true ∧
    (varS 1000).GetAddress = Except.ok 1000 ∧
    (layoutS 4).offsetOf (ident "y").text = Except.ok 4 ∧
    ∃ node : LvalueExpression,
      resolveFieldAccess (layoutS 4)
        (LvalueExpression.FieldAccessExpression (varS 1000) none (ident "S")
          (ident "y") true 0) = Except.ok node ∧
      node.GetAddress = Except.ok (1000 + 4) ∧
      node.IsDirect = true :=
  ⟨rfl, rfl, rfl,
    FieldAccess_address_is_base_plus_offset (layoutS 4) (varS 1000) none
      (ident "S") (ident "y") true 0 1000 4 rfl rfl rfl⟩

/-- The example of the address arithmetic for every address `A` and every
size of `int`: over `s` of type `S` at `A`, the field access `s.y` is
resolved at `A + sizeof(int)`. -/
theorem FieldAccess_y_address (A sizeofInt : Int) :
    ∃ node : LvalueExpression,
      resolveFieldAccess (layoutS sizeofInt) (varSY A) = Except.ok node ∧
      node.GetAddress = Except.ok (A + sizeofInt) := by
  refine ⟨LvalueExpression.FieldAccessExpression (varS A) none (ident "S")
    (ident "y") true (A + sizeofInt), ?_, rfl⟩
  have hfield : (layoutS sizeofInt).offsetOf (ident "y").text
      = Except.ok sizeofInt := by
    simp [StructLayout.offsetOf, layoutS, ident, List.find?]
  simp [varSY, FieldAccessExpression.new, resolveFieldAccess, hfield, varS,
    LvalueExpression.IsDirect, LvalueExpression.GetAddress, liftFault]

/-- C12: typing `Addressof(e)` for an operand `e` that is not direct fails
with `NotAddressable` and yields no node and no type; typing
`Addressof(VarAccess(x))` where `x` has the resolved type `T` succeeds, and
`GetType` of the result is `Pointer(T)`. -/
theorem Addressof_requires_direct_operand (ampersand : Token)
    (e : LvalueExpression) (he : e.IsDirect = false) (x : Token) (T : Ty)
    (address : Int) :
    checkAddressof (AddressofExpression.new ampersand e)
      = Except.error CheckError.NotAddressable ∧
    ∃ node : Expression,
      checkAddressof
        (AddressofExpression.new ampersand
          (LvalueExpression.VarAccessExpression x (some T) address))
        = Except.ok node ∧
      node.GetType = Except.ok (some (Ty.Pointer T)) := by
  constructor
  · simp [AddressofExpression.new, checkAddressof, he]
  · exact ⟨Expression.AddressofExpression ampersand
      (LvalueExpression.VarAccessExpression x (some T) address) (some ⟨T⟩),
      rfl, rfl⟩

/-- Witness of `Addressof_requires_direct_operand`: `&*p` is rejected with
`NotAddressable`, and `&x` with `x` of type `int` gets the type
`Pointer(int)`. -/
theorem Addressof_requires_direct_operand_witness :
    derefP.IsDirect = false ∧
    (checkAddressof (AddressofExpression.new (ident "&") derefP)
      = Except.error CheckError.NotAddressable ∧
    ∃ node : Expression,
      checkAddressof
        (AddressofExpression.new (ident "&")
          (LvalueExpression.VarAccessExpression (ident "x") (some intTy) 8))
        = Except.ok node ∧
      node.GetType = Except.ok (some (Ty.Pointer intTy))) :=
  ⟨rfl, Addressof_requires_direct_operand (ident "&") derefP rfl (ident "x")
    intTy 8⟩

/-- C13: on `etc -m M -l L -t`, for every `M` and `L`, `ParseOptions` calls
`SetMainModule(M)` and `SetStdlibPath(L)`, never calls `SetTestBuild`, and
ends in the usage message and `exit(EXIT_FAILURE)`, because `-t` is declared
with a required argument. On `etc -t -m main.et -l stdlib` the option `-t`
takes `-m` as its argument, `SetTestBuild` is the only call, and the run ends
in the usage message and `exit(EXIT_FAILURE)` as well. -/
theorem ParseOptions_t_is_not_a_switch (M L : String) :
    ParseOptions (argvTestLast M L)
      = ⟨[DriverCall.SetMainModule (some M), DriverCall.SetStdlibPath (some L)],
          [Diagnostic.OptionRequiresArgument "etc" 't', Diagnostic.Usage "etc"],
          Completion.Exited EXIT_FAILURE⟩ ∧
    ParseOptions (argvTestFirst "main.et" "stdlib")
      = ⟨[DriverCall.SetTestBuild], [Diagnostic.Usage "etc"],
          Completion.Exited EXIT_FAILURE⟩ := by
  constructor
  · unfold ParseOptions
    rw [steps_argvTestLast]
    simp [ParseOptions.loop, getopt, getoptShort, strchr, argvTestLast,
      GetoptState.initial, toChar]
  · decide

/-- C14: the constructors store what they are given. Comparison and Binary
keep left, operator and right in place; Unary keeps operator and operand;
FieldAccess keeps the operand, the struct name and the field name, the two
tokens not swapped; FnCall and StructConstruction keep the list of
arguments or values as it is, and the native-call flag of FnCall is false. -/
theorem constructors_store_their_arguments (l r e : Expression)
    (op struct_name field_name name : Token) (lvalue : LvalueExpression)
    (args : List Expression) :
    ComparisonExpression.new l op r = Expression.ComparisonExpression l op r ∧
    BinaryExpression.new l op r = Expression.BinaryExpression l op r ∧
    UnaryExpression.new op e = Expression.UnaryExpression op e ∧
    (∃ type is_direct address,
      FieldAccessExpression.new struct_name field_name lvalue
        = LvalueExpression.FieldAccessExpression lvalue type struct_name
            field_name is_direct address) ∧
    (∃ arguments : List Expression,
      FnCallExpression.new name args
        = Expression.FnCallExpression name arguments false ∧
      arguments = args ∧ arguments.length = args.length) ∧
    (∃ (values : List Expression) (type : Option Ty),
      StructConstructionExpression.new name args
        = Expression.StructConstructionExpression name values type ∧
      values = args ∧ values.length = args.length) :=
  ⟨rfl, rfl, rfl, ⟨none, true, 0, rfl⟩, ⟨args, rfl, rfl, rfl⟩,
    ⟨args, none, rfl, rfl, rfl⟩⟩

/-- C15: `IsDirect` depends only on the shape of the lvalue. Two lvalue
nodes with the same classes along their struct-operand chains return the
same value, whatever their `type_`, `address_`, `is_direct_` members and
tokens are; and the value of a FieldAccess node is the same for both values
of its `is_direct_` member. -/
theorem IsDirect_depends_only_on_shape (n m : LvalueExpression)
    (hshape : n.shape = m.shape) (operand : LvalueExpression)
    (type : Option Ty) (struct_name field_name : Token) (address : Int) :
    n.IsDirect = m.IsDirect ∧
    (LvalueExpression.FieldAccessExpression operand type struct_name
        field_name false address).IsDirect
      = (LvalueExpression.FieldAccessExpression operand type struct_name
        field_name true address).IsDirect :=
  ⟨IsDirect_eq_of_shape_eq n m hshape, rfl⟩

/-- Witness of `IsDirect_depends_only_on_shape`: the fresh `a.b` and a field
access with other tokens, a type, addresses and `is_direct_` false. -/
theorem IsDirect_depends_only_on_shape_witness :
    varAB.shape = annotatedField.shape ∧
    (varAB.IsDirect = annotatedField.IsDirect ∧
    (LvalueExpression.FieldAccessExpression varA none (ident "A") (ident "b")
        false 0).IsDirect
      = (LvalueExpression.FieldAccessExpression varA none (ident "A")
        (ident "b") true 0).IsDirect) :=
  ⟨rfl, IsDirect_depends_only_on_shape varAB annotatedField rfl varA none
    (ident "A") (ident "b") 0⟩

/-- C16: `IsDirect` is total on lvalue nodes. For every lvalue tree, in any
annotation state, the run of `IsDirect` returns a boolean after one call per
FieldAccess node above the root plus one call on the root, and any larger
budget of calls gives the same boolean; with fewer calls it has not
returned. No fault is raised: the result is `true` or `false`. -/
theorem IsDirect_total (n : LvalueExpression) (extra : Nat) :
    n.IsDirectWithin (n.fieldDepth + 1 + extra) = some n.IsDirect ∧
    n.IsDirectWithin n.fieldDepth = none ∧
    (n.IsDirect = true ∨ n.IsDirect = false) := by
  refine ⟨IsDirectWithin_enough n extra, IsDirectWithin_too_few n, ?_⟩
  cases n.IsDirect
  · exact Or.inr rfl
  · exact Or.inl rfl

end Etude
